import Mathlib

/-!
Verification of `download_fallback_images.py`, a script that downloads a
fixed list of fallback images over HTTP, writes them to local files and
reports aggregate success via the process exit code.

The script is embedded shallowly:

* bytes are naturals, file contents are byte lists (`Bytes`);
* the filesystem is a map from paths to optional file contents (`FS`);
* the set of existing directories and the ability to create new ones form
  a `DirState` (modelling `os.makedirs`);
* the network and the possibility of local `open` failures form an `Env`:
  `Env.http` gives, for each URL, either a transport error or a response
  with a status code and a body, and `Env.openFails` tells which local
  paths cannot be opened for writing;
* Python exceptions are values of `PyError`; code that may raise returns
  `Except PyError _`, and a `try/except` block is a `match` on that value;
* printed lines are accumulated in a list of strings.
-/

namespace Script

/-- Bytes of a file or of an HTTP response body. -/
abbrev Bytes := List Nat

/-- The filesystem: contents of the file at each path, if the file exists. -/
abbrev FS := String → Option Bytes

/-- One entry of the hard-coded `images_to_download` list. -/
structure Descriptor where
  url : String
  local_path : String
  description : String
deriving DecidableEq

/-- Outcome of `requests.get(url, stream=True)`: either a transport-level
exception or a response carrying a status code and a body. -/
inductive GetOutcome where
  | netError (msg : String)
  | response (status : Nat) (body : Bytes)
deriving DecidableEq

/-- A Python exception relevant to this script: a `requests` transport
exception, an `HTTPError` from `raise_for_status`, or an `OSError` from
the local filesystem. -/
inductive PyError where
  | requestError (msg : String)
  | httpStatusError (status : Nat)
  | osError (path : String)
deriving DecidableEq

/-- The ambient world the script runs against: the network and the local
ability to open files for writing. -/
structure Env where
  http : String → GetOutcome
  openFails : String → Bool

/-- Directory state for `os.makedirs`: which directories exist, and which
missing ones the filesystem would allow creating. -/
structure DirState where
  dirs : List String
  canCreate : String → Bool

/-- Message text of an exception, as interpolated by `f"...: {e}"`.
The exact message texts come from the Python runtime and the `requests`
library, so they are modelled abstractly but injectively per error. -/
def errMsg : PyError → String
  | .requestError m => m
  | .httpStatusError s => toString s ++ " Error for url"
  | .osError p => "cannot open " ++ p

/-- The `Downloading: {url}` progress line. -/
def dlLine (url : String) : String := "Downloading: " ++ url

/-- The `Saved to` success line. -/
def savedLine (p : String) : String := "✓ Saved to: " ++ p

/-- The failure line logged by the `except` branch of `download_image`. -/
def failLine (url : String) (e : PyError) : String :=
  "✗ Failed to download " ++ url ++ ": " ++ errMsg e

/-- Helper for `chunksOf`: split a list into chunks of `m + 1` elements
(the last chunk may be shorter).  Each step consumes at least one
element, so with `fuel` at least the list's length the fallback arm that
yields the remaining list whole is never reached. -/
def chunksFuel (m : Nat) : Nat → List Nat → List (List Nat)
  | _, [] => []
  | 0, l => [l]
  | fuel + 1, x :: xs => (x :: xs.take m) :: chunksFuel m fuel (xs.drop m)

/-- Split a byte list into chunks of `n` bytes, as
`response.iter_content(chunk_size=n)` yields them. -/
def chunksOf (n : Nat) (l : List Nat) : List (List Nat) :=
  if n = 0 then [] else chunksFuel (n - 1) l.length l

/-- `response.raise_for_status()`: raises `HTTPError` exactly when the
status code is 400 or above. -/
def raise_for_status (status : Nat) : Except PyError Unit :=
  if 400 ≤ status then .error (.httpStatusError status) else .ok ()

/-- Body of the `try` block of `download_image`: issue the GET, raise for
a bad status, open `local_path` for writing (truncating), and write the
body in 8192-byte chunks.  Returns the updated filesystem, or the first
exception raised. -/
def downloadBody (env : Env) (url local_path : String) (fs : FS) :
    Except PyError FS :=
  match env.http url with
  | .netError msg => .error (.requestError msg)
  | .response status body =>
    match raise_for_status status with
    | .error e => .error e
    | .ok _ =>
      if env.openFails local_path then .error (.osError local_path)
      else
        let written := (chunksOf 8192 body).flatten
        .ok (fun p => if p = local_path then some written else fs p)

/-- Result of one `download_image` call: the returned boolean, the
filesystem after the call, and the lines it printed. -/
structure DResult where
  ok : Bool
  fs : FS
  out : List String

/-- `download_image(url, local_path)`: run the `try` body and catch any
exception, logging it and returning `False`; on success return `True`. -/
def download_image (env : Env) (url local_path : String) (fs : FS) : DResult :=
  match downloadBody env url local_path fs with
  | .ok fs' => ⟨true, fs', [dlLine url, savedLine local_path]⟩
  | .error e => ⟨false, fs, [dlLine url, failLine url e]⟩

/-- Split a character list at `/` boundaries (accumulator holds the
current component, reversed). -/
def splitSlashGo : List Char → List Char → List String
  | [], acc => [String.mk acc.reverse]
  | c :: cs, acc =>
    if c = '/' then String.mk acc.reverse :: splitSlashGo cs []
    else splitSlashGo cs (c :: acc)

/-- The `/`-separated components of a path. -/
def splitSlash (s : String) : List String :=
  splitSlashGo s.data []

/-- Join path components with `/`. -/
def joinSlash : List String → String
  | [] => ""
  | [p] => p
  | p :: rest => p ++ "/" ++ joinSlash rest

/-- The chain of directories `os.makedirs(path)` ensures: every prefix of
`path` at a `/` boundary, innermost last. -/
def dirChain (path : String) : List String :=
  let parts := splitSlash path
  (List.range parts.length).map (fun i => joinSlash (parts.take (i + 1)))

/-- `ensure_directory(path)` = `os.makedirs(path, exist_ok=True)`: create
every missing directory of the chain; no error for the ones that already
exist; raise `OSError` if some missing one cannot be created. -/
def ensure_directory (st : DirState) (path : String) :
    Except PyError DirState :=
  let missing := (dirChain path).filter (fun d => !st.dirs.contains d)
  if missing.all st.canCreate then .ok { st with dirs := st.dirs ++ missing }
  else .error (.osError path)

/-- The hard-coded list of images in `main`. -/
def images_to_download : List Descriptor :=
  [ { url := "https://images.unsplash.com/photo-1489515217757-5fd1be406fef?auto=format&fit=crop&w=800&q=80",
      local_path := "public/images/fallbacks/attraction-fallback.jpg",
      description := "Fallback attraction image" },
    { url := "https://images.unsplash.com/photo-1467269204594-9661b134dd2b?auto=format&fit=crop&w=1600&q=80",
      local_path := "public/images/fallbacks/city-fallback.jpg",
      description := "Fallback city image" },
    { url := "https://images.unsplash.com/photo-1489515217757-5fd1be406fef?auto=format&fit=crop&w=1200&q=80",
      local_path := "public/images/fallbacks/hero-fallback.jpg",
      description := "Fallback hero image" },
    { url := "https://images.unsplash.com/photo-1488646953014-85cb44e25828?auto=format&fit=crop&w=1200&q=80",
      local_path := "public/images/fallbacks/seo-default.jpg",
      description := "SEO default meta image" },
    { url := "https://images.unsplash.com/photo-1469854523086-cc02fe5d8800?auto=format&fit=crop&w=1200&q=80",
      local_path := "public/images/fallbacks/about-page.jpg",
      description := "About page image" } ]

/-- The destination directory `main` ensures. -/
def fallbackDir : String := "public/images/fallbacks"

/-- State threaded through the download loop of `main`: the success
counter, the filesystem, the printed lines, and the trace of URLs
attempted so far (in order). -/
structure RunState where
  success_count : Nat
  fs : FS
  out : List String
  attempted : List String

/-- One iteration of the loop in `main`: print the description line, call
`download_image`, bump the counter on success, print the blank line. -/
def processOne (env : Env) (st : RunState) (d : Descriptor) : RunState :=
  let r := download_image env d.url d.local_path st.fs
  { success_count := st.success_count + (if r.ok then 1 else 0)
    fs := r.fs
    out := st.out ++ [("📥 " ++ d.description)] ++ r.out ++ [""]
    attempted := st.attempted ++ [d.url] }

/-- The download loop of `main`, from an arbitrary starting state. -/
def runFrom (env : Env) (descs : List Descriptor) (st : RunState) : RunState :=
  descs.foldl (processOne env) st

/-- Everything observable about a completed `main` run: the process exit
code, both counters, the summary line, all printed lines, the final
filesystem and the trace of attempted URLs. -/
structure MainOutcome where
  exitCode : Nat
  success_count : Nat
  total_count : Nat
  summary : String
  out : List String
  files : FS
  attempted : List String

/-- The summary line `Download complete: {success_count}/{total_count}
images downloaded successfully`. -/
def summaryLine (sc total : Nat) : String :=
  "Download complete: " ++ toString sc ++ "/" ++ toString total ++
    " images downloaded successfully"

/-- The body of `main`, parametrised by the descriptor list it iterates
(in the script the list is the literal `images_to_download`).  A failure
of `ensure_directory` propagates as an uncaught exception; otherwise the
loop runs over every descriptor and the function reports exit code `0`
when every download succeeded and `1` otherwise (`sys.exit(1)`). -/
def runMain (env : Env) (descs : List Descriptor) (dirs : DirState)
    (fs : FS) : Except PyError MainOutcome :=
  match ensure_directory dirs fallbackDir with
  | .error e => .error e
  | .ok _ =>
    let r := runFrom env descs ⟨0, fs, ["Starting download of fallback images...", ""], []⟩
    let total := descs.length
    let sc := r.success_count
    let summary := summaryLine sc total
    let tail := if sc = total then
        ["✅ All images downloaded successfully!"]
      else
        ["⚠️  Some images failed to download. Please check the errors above."]
    .ok { exitCode := if sc = total then 0 else 1
          success_count := sc
          total_count := total
          summary := summary
          out := r.out ++ [summary] ++ tail
          files := r.fs
          attempted := r.attempted }

/-- `main()` as the script runs it: the loop over `images_to_download`. -/
def main (env : Env) (dirs : DirState) (fs : FS) : Except PyError MainOutcome :=
  runMain env images_to_download dirs fs

/-- Whether the download described by `d` succeeds under `env`: the GET
returns a response, its status is below 400, and `local_path` can be
opened.  This depends on the environment only, not on the filesystem. -/
def downloadSucceeds (env : Env) (d : Descriptor) : Bool :=
  match env.http d.url with
  | .netError _ => false
  | .response status _ => decide (status < 400) && !env.openFails d.local_path

/-- The body the environment serves for descriptor `d` (empty when the
GET fails at transport level). -/
def bodyOf (env : Env) (d : Descriptor) : Bytes :=
  match env.http d.url with
  | .netError _ => []
  | .response _ body => body

/-- The bytes `d`'s download writes to path `p`, if it writes there. -/
def writeOf (env : Env) (d : Descriptor) (p : String) : Option Bytes :=
  if p = d.local_path then
    if downloadSucceeds env d then some ((chunksOf 8192 (bodyOf env d)).flatten)
    else none
  else none

/-- The last write the loop over `descs` performs at path `p`, if any. -/
def lastWrite (env : Env) (descs : List Descriptor) (p : String) : Option Bytes :=
  match descs with
  | [] => none
  | d :: rest =>
    match lastWrite env rest p with
    | some b => some b
    | none => writeOf env d p

/-- Concatenating the chunks of a list recovers the list, for any fuel. -/
theorem chunksFuel_flatten (m : Nat) :
    ∀ (fuel : Nat) (l : List Nat), (chunksFuel m fuel l).flatten = l := by
  intro fuel
  induction fuel with
  | zero =>
    intro l
    match l with
    | [] => rfl
    | x :: xs => simp [chunksFuel]
  | succ fuel ih =>
    intro l
    match l with
    | [] => rfl
    | x :: xs =>
      rw [chunksFuel, List.flatten_cons, ih (xs.drop m)]
      simp [List.take_append_drop]

/-- Concatenating `iter_content`-style chunks of positive size recovers
the full body. -/
theorem chunksOf_flatten (n : Nat) (hn : n ≠ 0) (l : List Nat) :
    (chunksOf n l).flatten = l := by
  rw [chunksOf, if_neg hn]
  exact chunksFuel_flatten (n - 1) l.length l

/-- With enough fuel every chunk is non-empty and holds at most `m + 1`
elements. -/
theorem chunksFuel_mem_length (m : Nat) :
    ∀ (fuel : Nat) (l : List Nat), l.length ≤ fuel →
      ∀ c ∈ chunksFuel m fuel l, 0 < c.length ∧ c.length ≤ m + 1 := by
  intro fuel
  induction fuel with
  | zero =>
    intro l hl c hc
    have : l = [] := List.length_eq_zero.mp (Nat.le_zero.mp hl)
    subst this
    cases hc
  | succ fuel ih =>
    intro l hl c hc
    match l with
    | [] => cases hc
    | x :: xs =>
      rw [chunksFuel] at hc
      rcases List.mem_cons.mp hc with heq | hmem
      · subst heq
        constructor
        · simp
        · simp only [List.length_cons, List.length_take]
          omega
      · have hx : xs.length ≤ fuel := by
          simp only [List.length_cons] at hl
          omega
        have hd : (xs.drop m).length ≤ fuel := by
          simp only [List.length_drop]
          omega
        exact ih (xs.drop m) hd c hmem

/-- Every chunk `iter_content` yields is non-empty and at most `n`
bytes. -/
theorem chunksOf_mem_length (n : Nat) (hn : n ≠ 0) (l : List Nat) :
    ∀ c ∈ chunksOf n l, 0 < c.length ∧ c.length ≤ n := by
  intro c hc
  rw [chunksOf, if_neg hn] at hc
  have := chunksFuel_mem_length (n - 1) l.length l (Nat.le_refl _) c hc
  omega

/-- The boolean `download_image` returns is exactly `downloadSucceeds`,
independently of the filesystem. -/
theorem download_image_ok (env : Env) (d : Descriptor) (fs : FS) :
    (download_image env d.url d.local_path fs).ok = downloadSucceeds env d := by
  unfold download_image downloadBody downloadSucceeds raise_for_status
  cases henv : env.http d.url with
  | netError m => rfl
  | response s b =>
    by_cases hs : 400 ≤ s
    · have : ¬s < 400 := by omega
      simp [hs, this]
    · have hlt : s < 400 := by omega
      by_cases ho : env.openFails d.local_path <;> simp [hs, hlt, ho]

/-- Effect of one `download_image` call on the file at `p`: the write the
descriptor performs there, if any, else the old contents. -/
theorem download_image_fs (env : Env) (d : Descriptor) (fs : FS) (p : String) :
    (download_image env d.url d.local_path fs).fs p =
      (writeOf env d p).or (fs p) := by
  unfold download_image downloadBody writeOf downloadSucceeds bodyOf raise_for_status
  cases henv : env.http d.url with
  | netError m =>
    by_cases hp : p = d.local_path <;> simp [hp]
  | response s b =>
    by_cases hs : 400 ≤ s
    · have : ¬s < 400 := by omega
      by_cases hp : p = d.local_path <;> simp [hs, this, hp]
    · have hlt : s < 400 := by omega
      by_cases ho : env.openFails d.local_path <;>
        by_cases hp : p = d.local_path <;> simp [hs, hlt, ho, hp]

/-- The success counter after the loop: the starting counter plus the
number of descriptors whose download succeeds under `env`. -/
theorem runFrom_success_count (env : Env) (descs : List Descriptor) :
    ∀ st : RunState, (runFrom env descs st).success_count =
      st.success_count + descs.countP (downloadSucceeds env) := by
  induction descs with
  | nil => intro st; simp [runFrom]
  | cons d rest ih =>
    intro st
    have hstep : runFrom env (d :: rest) st =
        runFrom env rest (processOne env st d) := by
      simp [runFrom]
    rw [hstep, ih, List.countP_cons]
    simp only [processOne, download_image_ok]
    omega

/-- The trace of attempted URLs after the loop: the starting trace
followed by every descriptor's URL, in list order. -/
theorem runFrom_attempted (env : Env) (descs : List Descriptor) :
    ∀ st : RunState, (runFrom env descs st).attempted =
      st.attempted ++ descs.map Descriptor.url := by
  induction descs with
  | nil => intro st; simp [runFrom]
  | cons d rest ih =>
    intro st
    have hstep : runFrom env (d :: rest) st =
        runFrom env rest (processOne env st d) := by
      simp [runFrom]
    rw [hstep, ih]
    simp [processOne]

/-- Contents of the file at `p` after the loop: the last write the loop
performs there, if any, else the starting contents. -/
theorem runFrom_fs (env : Env) (descs : List Descriptor) :
    ∀ (st : RunState) (p : String),
      (runFrom env descs st).fs p = (lastWrite env descs p).or (st.fs p) := by
  induction descs with
  | nil => intro st p; simp [runFrom, lastWrite]
  | cons d rest ih =>
    intro st p
    have hstep : runFrom env (d :: rest) st =
        runFrom env rest (processOne env st d) := by
      simp [runFrom]
    rw [hstep, ih]
    have hfs : (processOne env st d).fs p = (writeOf env d p).or (st.fs p) :=
      download_image_fs env d st.fs p
    rw [hfs, lastWrite]
    cases lastWrite env rest p <;> simp [Option.or]

/-- No descriptor writes at `p` when `p` is none of their local paths. -/
theorem lastWrite_eq_none (env : Env) (descs : List Descriptor) (p : String)
    (h : ∀ d ∈ descs, p ≠ d.local_path) : lastWrite env descs p = none := by
  induction descs with
  | nil => rfl
  | cons d rest ih =>
    rw [lastWrite, ih (fun d' hd' => h d' (List.mem_cons_of_mem d hd'))]
    unfold writeOf
    rw [if_neg (h d (List.mem_cons_self d rest))]

/-- When local paths are pairwise distinct and `d`'s download succeeds,
the loop's last (and only) write at `d.local_path` is `d`'s body, in
chunked form. -/
theorem lastWrite_of_mem (env : Env) (descs : List Descriptor) (d : Descriptor)
    (hd : d ∈ descs) (hnd : (descs.map Descriptor.local_path).Nodup)
    (hs : downloadSucceeds env d = true) :
    lastWrite env descs d.local_path =
      some ((chunksOf 8192 (bodyOf env d)).flatten) := by
  induction descs with
  | nil => cases hd
  | cons a rest ih =>
    rw [lastWrite]
    simp only [List.map_cons, List.nodup_cons] at hnd
    rcases List.mem_cons.mp hd with heq | hmem
    · subst heq
      have hnotin : ∀ d' ∈ rest, d.local_path ≠ d'.local_path := by
        intro d' hd' hcontra
        exact hnd.1 (hcontra ▸ List.mem_map_of_mem Descriptor.local_path hd')
      rw [lastWrite_eq_none env rest d.local_path hnotin]
      unfold writeOf
      rw [if_pos rfl, if_pos hs]
    · rw [ih hmem hnd.2]

/-- Unpacking a successful `runMain`: counters, exit code, summary line,
attempt trace, and final file contents. -/
theorem runMain_ok (env : Env) (descs : List Descriptor) (dirs : DirState)
    (fs : FS) (o : MainOutcome) (h : runMain env descs dirs fs = Except.ok o) :
    o.success_count = descs.countP (downloadSucceeds env) ∧
    o.total_count = descs.length ∧
    o.exitCode = (if o.success_count = o.total_count then 0 else 1) ∧
    o.summary = summaryLine o.success_count o.total_count ∧
    o.summary ∈ o.out ∧
    o.attempted = descs.map Descriptor.url ∧
    (∀ p, o.files p = (lastWrite env descs p).or (fs p)) := by
  unfold runMain at h
  cases he : ensure_directory dirs fallbackDir with
  | error e =>
    rw [he] at h
    exact absurd h (by simp)
  | ok st2 =>
    rw [he] at h
    simp only [] at h
    have ho := Except.ok.inj h
    subst ho
    refine ⟨?_, rfl, ?_, rfl, ?_, ?_, ?_⟩
    · have hsc := runFrom_success_count env descs
        ⟨0, fs, ["Starting download of fallback images...", ""], []⟩
      simpa using hsc
    · have hsc := runFrom_success_count env descs
        ⟨0, fs, ["Starting download of fallback images...", ""], []⟩
      simp at hsc
      simp [hsc]
    · simp
    · simpa using runFrom_attempted env descs _
    · intro p
      simpa using runFrom_fs env descs _ p

/-- Test network: every GET returns status 200 with body `[7, 8, 9]`,
and every local path can be opened. -/
def envOkAll : Env :=
  { http := fun _ => .response 200 [7, 8, 9], openFails := fun _ => false }

/-- Test network: every GET returns status 200 with an empty body. -/
def envEmptyBody : Env :=
  { http := fun _ => .response 200 [], openFails := fun _ => false }

/-- Test network: every GET fails at transport level. -/
def envNetFail : Env :=
  { http := fun _ => .netError ("connection refused"), openFails := fun _ => false }

/-- Empty directory state in which any directory may be created. -/
def dirs0 : DirState := { dirs := [], canCreate := fun _ => true }

/-- Empty filesystem. -/
def fs0 : FS := fun _ => none

/-- Extract the outcome of a completed run (dummy value on an uncaught
exception). -/
def outcomeOf (r : Except PyError MainOutcome) : MainOutcome :=
  match r with
  | .ok o => o
  | .error _ => ⟨0, 0, 0, "", [], fun _ => none, []⟩

/-- The outcome of `main` against `envOkAll`, from empty state. -/
def oAll : MainOutcome := outcomeOf (main envOkAll dirs0 fs0)

/-- The outcome of `main` against `envEmptyBody`, from empty state. -/
def oEmpty : MainOutcome := outcomeOf (main envEmptyBody dirs0 fs0)

/-- The outcome of `main` against `envNetFail`, from empty state. -/
def oNet : MainOutcome := outcomeOf (main envNetFail dirs0 fs0)

/-- Exit code of a `main` run, `none` on an uncaught exception. -/
def mainExit (env : Env) (dirs : DirState) (fs : FS) : Option Nat :=
  match main env dirs fs with
  | .ok o => some o.exitCode
  | .error _ => none

/-- Contents of the file at `p` after a `main` run, `none` on an
uncaught exception. -/
def mainFileAt (env : Env) (dirs : DirState) (fs : FS) (p : String) :
    Option (Option Bytes) :=
  match main env dirs fs with
  | .ok o => some (o.files p)
  | .error _ => none

/-- The two-descriptor list of the spec's example scenario: item 1 will
answer 200 with body bytes, item 2 will answer 404. -/
def twoDescs : List Descriptor :=
  [ { url := "http://example.com/one.jpg", local_path := "one.jpg",
      description := "one" },
    { url := "http://example.com/two.jpg", local_path := "two.jpg",
      description := "two" } ]

/-- Network for the example scenario: 200 with body `[1, 2, 3]` for the
first URL, 404 with empty body for everything else. -/
def envTwo : Env :=
  { http := fun u =>
      if u = "http://example.com/one.jpg" then .response 200 [1, 2, 3]
      else .response 404 []
    openFails := fun _ => false }

/-- Exit code of a `runMain` run over an explicit descriptor list. -/
def runExit (env : Env) (descs : List Descriptor) (dirs : DirState)
    (fs : FS) : Option Nat :=
  match runMain env descs dirs fs with
  | .ok o => some o.exitCode
  | .error _ => none

/-- Summary line of a `runMain` run over an explicit descriptor list. -/
def runSummary (env : Env) (descs : List Descriptor) (dirs : DirState)
    (fs : FS) : Option String :=
  match runMain env descs dirs fs with
  | .ok o => some o.summary
  | .error _ => none

/-- Success counter of a `runMain` run over an explicit descriptor list. -/
def runSuccessCount (env : Env) (descs : List Descriptor) (dirs : DirState)
    (fs : FS) : Option Nat :=
  match runMain env descs dirs fs with
  | .ok o => some o.success_count
  | .error _ => none

/-- Contents of the file at `p` after a `runMain` run. -/
def runFileAt (env : Env) (descs : List Descriptor) (dirs : DirState)
    (fs : FS) (p : String) : Option (Option Bytes) :=
  match runMain env descs dirs fs with
  | .ok o => some (o.files p)
  | .error _ => none

/-- C1: when `main` completes (no uncaught directory error), its exit
code is `0` iff every descriptor's download succeeded, and `1` as soon as
at least one failed; termination happens only after every descriptor was
attempted in order and the summary line was printed. -/
theorem c1_exit_code (env : Env) (dirs : DirState) (fs : FS) (o : MainOutcome)
    (h : main env dirs fs = Except.ok o) :
    (o.exitCode = 0 ↔ ∀ d ∈ images_to_download, downloadSucceeds env d = true) ∧
    ((∃ d ∈ images_to_download, downloadSucceeds env d = false) → o.exitCode = 1) ∧
    o.summary ∈ o.out ∧
    o.attempted = images_to_download.map Descriptor.url := by
  obtain ⟨hsc, htot, hexit, _, hmem, hatt, _⟩ :=
    runMain_ok env images_to_download dirs fs o h
  have hiff : o.success_count = o.total_count ↔
      ∀ d ∈ images_to_download, downloadSucceeds env d = true := by
    rw [hsc, htot]
    exact List.countP_eq_length
  refine ⟨?_, ?_, hmem, hatt⟩
  · constructor
    · intro h0
      apply hiff.mp
      by_contra hne
      rw [if_neg hne] at hexit
      omega
    · intro hall
      rw [if_pos (hiff.mpr hall)] at hexit
      exact hexit
  · rintro ⟨d, hd, hfail⟩
    have hne : ¬o.success_count = o.total_count := by
      intro hcontra
      have := hiff.mp hcontra d hd
      rw [this] at hfail
      cases hfail
    rw [if_neg hne] at hexit
    exact hexit

/-- C1 witness: against the all-success network the exit code is `0`. -/
theorem c1_exit_code_witness :
    main envOkAll dirs0 fs0 = Except.ok oAll ∧ oAll.exitCode = 0 :=
  ⟨rfl, (c1_exit_code envOkAll dirs0 fs0 oAll rfl).1.mpr (by decide)⟩

/-- C2: `download_image` never lets an HTTP or transport error escape: on
a transport failure or a status of 400 or above it returns `False` with
the filesystem untouched and the failure logged, and on a successful GET
it returns `True`. -/
theorem c2_download_catches (env : Env) (url path : String) (fs : FS) :
    (∀ msg, env.http url = .netError msg →
      download_image env url path fs =
        ⟨false, fs, [dlLine url, failLine url (.requestError msg)]⟩) ∧
    (∀ s b, env.http url = .response s b → 400 ≤ s →
      download_image env url path fs =
        ⟨false, fs, [dlLine url, failLine url (.httpStatusError s)]⟩) ∧
    (∀ s b, env.http url = .response s b → s < 400 →
      env.openFails path = false →
      (download_image env url path fs).ok = true) := by
  refine ⟨?_, ?_, ?_⟩
  · intro msg hmsg
    unfold download_image downloadBody
    rw [hmsg]
  · intro s b hresp hs
    unfold download_image downloadBody raise_for_status
    rw [hresp]
    simp [hs]
  · intro s b hresp hs ho
    unfold download_image downloadBody raise_for_status
    rw [hresp]
    have hns : ¬400 ≤ s := by omega
    simp [hns, ho]

/-- C2 witness: a transport failure is caught and logged. -/
theorem c2_download_catches_witness :
    download_image envNetFail ("u") ("p") fs0 =
      ⟨false, fs0, [dlLine ("u"),
        failLine ("u") (.requestError ("connection refused"))]⟩ :=
  (c2_download_catches envNetFail ("u") ("p") fs0).1 ("connection refused") rfl

/-- C3: the loop of `main` attempts every descriptor exactly once, in
list order, whatever the environment does — failures never abort the
remaining downloads. -/
theorem c3_order (env : Env) (descs : List Descriptor) (dirs : DirState)
    (fs : FS) (o : MainOutcome) (h : runMain env descs dirs fs = Except.ok o) :
    o.attempted = descs.map Descriptor.url :=
  (runMain_ok env descs dirs fs o h).2.2.2.2.2.1

/-- C3 witness: even when every GET fails, all five URLs are attempted in
list order. -/
theorem c3_order_witness :
    runMain envNetFail images_to_download dirs0 fs0 = Except.ok oNet ∧
    oNet.attempted = images_to_download.map Descriptor.url :=
  ⟨rfl, c3_order envNetFail images_to_download dirs0 fs0 oNet rfl⟩

/-- When the whole chain already exists, `ensure_directory` is a no-op. -/
theorem ensure_directory_of_mem (st : DirState) (path : String)
    (hmem : ∀ q ∈ dirChain path, q ∈ st.dirs) :
    ensure_directory st path = Except.ok st := by
  have hfil : (dirChain path).filter (fun d => !st.dirs.contains d) = [] := by
    rw [List.filter_eq_nil_iff]
    intro q hq
    simp [List.contains, List.elem_iff]
    exact hmem q hq
  simp only [ensure_directory, hfil]
  simp

/-- A successful `ensure_directory` appends exactly the missing chain
directories to the existing ones. -/
theorem ensure_directory_ok_dirs (st st' : DirState) (path : String)
    (h : ensure_directory st path = Except.ok st') :
    st'.dirs = st.dirs ++ (dirChain path).filter (fun d => !st.dirs.contains d) := by
  simp only [ensure_directory] at h
  by_cases hall :
      ((dirChain path).filter (fun d => !st.dirs.contains d)).all st.canCreate = true
  · rw [if_pos hall] at h
    rw [← Except.ok.inj h]
  · rw [if_neg hall] at h
    exact absurd h (by simp)

/-- After a successful `ensure_directory`, the whole chain exists. -/
theorem ensure_directory_ok_mem (st st' : DirState) (path : String)
    (h : ensure_directory st path = Except.ok st') :
    ∀ q ∈ dirChain path, q ∈ st'.dirs := by
  intro q hq
  rw [ensure_directory_ok_dirs st st' path h, List.mem_append]
  by_cases hin : q ∈ st.dirs
  · exact Or.inl hin
  · refine Or.inr (List.mem_filter.mpr ⟨hq, ?_⟩)
    simp [List.contains, List.elem_iff]
    exact hin

/-- C7: `ensure_directory` is idempotent — a second call on the state a
successful call produced succeeds and changes nothing, and a call on a
state where the chain already exists is a no-op; a successful call makes
the whole chain exist; it fails only when some missing directory of the
chain cannot be created. -/
theorem c7_ensure_directory (st st' : DirState) (path : String) :
    (ensure_directory st path = Except.ok st' →
      ensure_directory st' path = Except.ok st') ∧
    ((∀ q ∈ dirChain path, q ∈ st.dirs) →
      ensure_directory st path = Except.ok st) ∧
    (ensure_directory st path = Except.ok st' →
      ∀ q ∈ dirChain path, q ∈ st'.dirs) ∧
    (∀ e, ensure_directory st path = Except.error e →
      ∃ q ∈ dirChain path, q ∉ st.dirs ∧ st.canCreate q = false) := by
  refine ⟨?_, ensure_directory_of_mem st path, ensure_directory_ok_mem st st' path, ?_⟩
  · intro h
    exact ensure_directory_of_mem st' path (ensure_directory_ok_mem st st' path h)
  · intro e he
    simp only [ensure_directory] at he
    by_cases hall :
        ((dirChain path).filter (fun d => !st.dirs.contains d)).all st.canCreate = true
    · rw [if_pos hall] at he
      exact absurd he (by simp)
    · rw [List.all_eq_true] at hall
      push_neg at hall
      obtain ⟨q, hq, hnc⟩ := hall
      have hmem := List.mem_filter.mp hq
      refine ⟨q, hmem.1, ?_, ?_⟩
      · have := hmem.2
        simp [List.contains, List.elem_iff] at this
        exact this
      · exact Bool.eq_false_iff.mpr hnc

/-- The directory state after creating the fallback chain from scratch. -/
def dirsAfter : DirState :=
  { dirs := ["public", "public/images", "public/images/fallbacks"],
    canCreate := fun _ => true }

/-- C7 witness: creating the fallback directory from an empty state and
then calling `ensure_directory` again leaves the state unchanged. -/
theorem c7_ensure_directory_witness :
    ensure_directory dirs0 fallbackDir = Except.ok dirsAfter ∧
    ensure_directory dirsAfter fallbackDir = Except.ok dirsAfter :=
  ⟨rfl, (c7_ensure_directory dirs0 dirsAfter fallbackDir).1 rfl⟩

/-- The first descriptor of `images_to_download`. -/
def attrDesc : Descriptor :=
  { url := "https://images.unsplash.com/photo-1489515217757-5fd1be406fef?auto=format&fit=crop&w=800&q=80",
    local_path := "public/images/fallbacks/attraction-fallback.jpg",
    description := "Fallback attraction image" }

/-- C4 (amended): after a run in which every download succeeds, the file
at each descriptor's `local_path` exists and holds exactly the response
body; in particular it is non-empty whenever the response body is
non-empty (the code writes whatever the server sends, so an empty 200
response yields an existing but empty file). -/
theorem c4_files (env : Env) (dirs : DirState) (fs : FS) (o : MainOutcome)
    (h : main env dirs fs = Except.ok o)
    (hall : ∀ d ∈ images_to_download, downloadSucceeds env d = true) :
    ∀ d ∈ images_to_download,
      o.files d.local_path = some (bodyOf env d) ∧
      (bodyOf env d ≠ [] → o.files d.local_path ≠ some ([] : Bytes)) := by
  obtain ⟨_, _, _, _, _, _, hfiles⟩ :=
    runMain_ok env images_to_download dirs fs o h
  intro d hd
  have hnd : (images_to_download.map Descriptor.local_path).Nodup := by decide
  have hlw := lastWrite_of_mem env images_to_download d hd hnd (hall d hd)
  have hfile : o.files d.local_path = some ((chunksOf 8192 (bodyOf env d)).flatten) := by
    rw [hfiles d.local_path, hlw]
    rfl
  rw [chunksOf_flatten 8192 (by omega) (bodyOf env d)] at hfile
  refine ⟨hfile, fun hne hcontra => hne ?_⟩
  rw [hfile] at hcontra
  exact Option.some.inj hcontra

/-- C4 witness: against the all-success network the attraction file holds
the served body. -/
theorem c4_files_witness :
    main envOkAll dirs0 fs0 = Except.ok oAll ∧
    oAll.files ("public/images/fallbacks/attraction-fallback.jpg") =
      some [7, 8, 9] := by
  refine ⟨rfl, ?_⟩
  have h := c4_files envOkAll dirs0 fs0 oAll rfl (by decide) attrDesc (by decide)
  exact h.1

/-- C4 counterexample: with a network that answers 200 with an empty body
every download succeeds and the run exits 0, yet the downloaded file,
though it exists, is empty — refuting the unconditional non-emptiness
of the claim. -/
theorem c4_counterexample :
    images_to_download.all (downloadSucceeds envEmptyBody) = true ∧
    mainExit envEmptyBody dirs0 fs0 = some 0 ∧
    mainFileAt envEmptyBody dirs0 fs0
        ("public/images/fallbacks/attraction-fallback.jpg") = some (some []) :=
  ⟨by decide, rfl, rfl⟩

/-- C5: the summary line is `success_count/total_count` where the success
counter counts exactly the descriptors whose download returned `True` and
the total is the length of the descriptor list; in the spec's two-item
scenario (item 1: HTTP 200 with body, item 2: HTTP 404) the summary is
`1/2`, the exit code `1`, the first file written and the second absent. -/
theorem c5_summary (env : Env) (descs : List Descriptor) (dirs : DirState)
    (fs : FS) (o : MainOutcome) (h : runMain env descs dirs fs = Except.ok o) :
    (o.success_count = descs.countP (downloadSucceeds env) ∧
     o.total_count = descs.length ∧
     o.summary = summaryLine o.success_count o.total_count ∧
     o.summary ∈ o.out) ∧
    (runSummary envTwo twoDescs dirs0 fs0 = some (summaryLine 1 2) ∧
     runExit envTwo twoDescs dirs0 fs0 = some 1 ∧
     runFileAt envTwo twoDescs dirs0 fs0 ("one.jpg") = some (some [1, 2, 3]) ∧
     runFileAt envTwo twoDescs dirs0 fs0 ("two.jpg") = some none) := by
  obtain ⟨hsc, htot, _, hsum, hmem, _, _⟩ := runMain_ok env descs dirs fs o h
  exact ⟨⟨hsc, htot, hsum, hmem⟩, rfl, rfl, rfl, rfl⟩

/-- C5 witness: the all-success run of the real list reports `5/5`. -/
theorem c5_summary_witness :
    runMain envOkAll images_to_download dirs0 fs0 = Except.ok oAll ∧
    oAll.summary = summaryLine oAll.success_count oAll.total_count :=
  ⟨rfl, ((c5_summary envOkAll images_to_download dirs0 fs0 oAll rfl).1).2.2.1⟩

/-- C6: on a successful GET the bytes written to `local_path` are the
concatenation of the 8192-byte chunks of the response body, which is the
full body; every chunk is non-empty and at most 8192 bytes. -/
theorem c6_chunked_write (env : Env) (url path : String) (fs : FS)
    (s : Nat) (body : Bytes) (hresp : env.http url = .response s body)
    (hs : s < 400) (ho : env.openFails path = false) :
    (download_image env url path fs).fs path =
      some ((chunksOf 8192 body).flatten) ∧
    (chunksOf 8192 body).flatten = body ∧
    (∀ c ∈ chunksOf 8192 body, 0 < c.length ∧ c.length ≤ 8192) := by
  have hd : downloadSucceeds env ⟨url, path, ""⟩ = true := by
    unfold downloadSucceeds
    rw [hresp]
    simp [ho, hs]
  have hfs := download_image_fs env ⟨url, path, ""⟩ fs path
  unfold writeOf bodyOf at hfs
  rw [hresp] at hfs
  simp only [if_pos rfl, hd, if_true] at hfs
  exact ⟨hfs, chunksOf_flatten 8192 (by omega) body,
    chunksOf_mem_length 8192 (by omega) body⟩

/-- C6 witness: a three-byte body is written whole. -/
theorem c6_chunked_write_witness :
    (download_image envOkAll ("u") ("p") fs0).fs ("p") =
      some ((chunksOf 8192 [7, 8, 9]).flatten) ∧
    (chunksOf 8192 [7, 8, 9]).flatten = [7, 8, 9] :=
  ⟨(c6_chunked_write envOkAll ("u") ("p") fs0 200 [7, 8, 9] rfl (by omega) rfl).1,
   (c6_chunked_write envOkAll ("u") ("p") fs0 200 [7, 8, 9] rfl (by omega) rfl).2.1⟩

/-- The environment in which every local path fails to open. -/
def envOpenFail : Env :=
  { http := fun _ => .response 200 [7], openFails := fun _ => true }

/-- C9: `download_image` converts every exception its body raises —
transport, HTTP status, or local filesystem (`open`) — into the return
value `False` with the filesystem unchanged and the failure logged, so
no call ever raises to its caller: the call always returns one of the
two indicators. -/
theorem c9_catches_all (env : Env) (url path : String) (fs : FS) :
    (∀ e, downloadBody env url path fs = Except.error e →
      download_image env url path fs =
        ⟨false, fs, [dlLine url, failLine url e]⟩) ∧
    (∀ s b, env.http url = .response s b → s < 400 →
      env.openFails path = true →
      download_image env url path fs =
        ⟨false, fs, [dlLine url, failLine url (.osError path)]⟩) ∧
    ((download_image env url path fs).ok = true ∨
     (download_image env url path fs).ok = false) := by
  refine ⟨?_, ?_, ?_⟩
  · intro e he
    unfold download_image
    rw [he]
  · intro s b hresp hs ho
    unfold download_image downloadBody raise_for_status
    rw [hresp]
    have hns : ¬400 ≤ s := by omega
    simp [hns, ho]
  · cases (download_image env url path fs).ok
    · exact Or.inr rfl
    · exact Or.inl rfl

/-- C9 witness: a local `open` failure is caught and reported as
`False`, leaving the filesystem unchanged. -/
theorem c9_catches_all_witness :
    download_image envOpenFail ("u") ("p") fs0 =
      ⟨false, fs0, [dlLine ("u"), failLine ("u") (.osError ("p"))]⟩ :=
  (c9_catches_all envOpenFail ("u") ("p") fs0).2.1 200 [7] rfl (by omega) rfl

/-- C10: `download_image` touches `local_path` only after a successful
status: on a transport failure or a status of 400 or above the whole
filesystem — in particular any pre-existing file at `local_path` — is
left unchanged. -/
theorem c10_no_write_before_status (env : Env) (url path : String) (fs : FS) :
    (∀ msg, env.http url = .netError msg →
      (download_image env url path fs).fs = fs) ∧
    (∀ s b, env.http url = .response s b → 400 ≤ s →
      (download_image env url path fs).fs = fs) := by
  constructor
  · intro msg hmsg
    unfold download_image downloadBody
    rw [hmsg]
  · intro s b hresp hs
    unfold download_image downloadBody raise_for_status
    rw [hresp]
    simp [hs]

/-- C10 witness: a 404 response leaves a pre-existing file untouched. -/
theorem c10_no_write_before_status_witness :
    (download_image envTwo ("http://example.com/two.jpg") ("two.jpg") fs0).fs = fs0 :=
  (c10_no_write_before_status envTwo ("http://example.com/two.jpg")
    ("two.jpg") fs0).2 404 [] rfl (by omega)

/-- A filesystem in which every path already holds a one-byte file. -/
def fsPre : FS := fun _ => some [0]

/-- Outcome of a first `main` run against `envOkAll` over `fsPre`. -/
def oPre : MainOutcome := outcomeOf (main envOkAll dirs0 fsPre)

/-- Outcome of a second `main` run over the files of the first. -/
def oPre2 : MainOutcome := outcomeOf (main envOkAll dirs0 oPre.files)

/-- C8: a successful `download_image` replaces whatever file existed at
`local_path` with the new body, without error; consequently a second
`main` run over the files of a first run completes with identical files,
exit code and summary instead of failing. -/
theorem c8_overwrite (env : Env) (d : Descriptor) (fs : FS) (old : Bytes)
    (hex : fs d.local_path = some old) (hs : downloadSucceeds env d = true)
    (dirs dirs' : DirState) (o1 o2 : MainOutcome)
    (h1 : main env dirs fs = Except.ok o1)
    (h2 : main env dirs' o1.files = Except.ok o2) :
    ((download_image env d.url d.local_path fs).ok = true ∧
     (download_image env d.url d.local_path fs).fs d.local_path =
       some ((chunksOf 8192 (bodyOf env d)).flatten)) ∧
    (o2.files = o1.files ∧ o2.exitCode = o1.exitCode ∧
     o2.summary = o1.summary) := by
  obtain ⟨hsc1, htot1, hexit1, hsum1, _, _, hfiles1⟩ :=
    runMain_ok env images_to_download dirs fs o1 h1
  obtain ⟨hsc2, htot2, hexit2, hsum2, _, _, hfiles2⟩ :=
    runMain_ok env images_to_download dirs' o1.files o2 h2
  have hcount : o2.success_count = o1.success_count := by rw [hsc1, hsc2]
  have htotal : o2.total_count = o1.total_count := by rw [htot1, htot2]
  refine ⟨⟨?_, ?_⟩, ?_, ?_, ?_⟩
  · rw [download_image_ok env d fs, hs]
  · have hfs := download_image_fs env d fs d.local_path
    unfold writeOf at hfs
    rw [if_pos rfl, if_pos hs] at hfs
    exact hfs
  · funext p
    rw [hfiles2 p, hfiles1 p]
    cases lastWrite env images_to_download p <;> simp [Option.or]
  · rw [hexit1, hexit2, hcount, htotal]
  · rw [hsum1, hsum2, hcount, htotal]

/-- C8 witness: with every file pre-existing, the first descriptor's
download still returns `True`, and a second full run reproduces the
first run's exit code. -/
theorem c8_overwrite_witness :
    (download_image envOkAll attrDesc.url attrDesc.local_path fsPre).ok = true ∧
    oPre2.exitCode = oPre.exitCode := by
  have h := c8_overwrite envOkAll attrDesc fsPre [0] rfl (by decide)
    dirs0 dirs0 oPre oPre2 rfl rfl
  exact ⟨h.1.1, h.2.2.1⟩

end Script
